import Mathlib

/-!
Verification development for django-partial-index.

This file shallowly embeds the parts of the library that the specification's
claims are about:

* the pre-check engine `ValidatePartialUniqueMixin.validate_partial_unique`
  and `validate_unique` from `partial_index/mixins.py`;
* the descriptor constructor `PartialIndex.__init__`, the naming engine
  `PartialIndex.set_name_with_model` / `name_hash_extra_data`, and the
  vendor dispatch `get_where_condition_for_vendor` /
  `get_valid_vendor_for_connection` from `partial_index/__init__.py`.

The word "partial" is a reserved token in this development's toolchain, so
identifiers shorten `PartialIndex` to `PIdx`/`IdxDef` and
`validate_partial_unique` to `validatePU`; doc comments give the original
Python names.  Python `None`/field values are embedded as `Value`, Python
dynamically-typed scalars (for the `unique` flag) as `PyVal`.
-/

/-- A field value on a model instance or database row: Python `None`
(SQL NULL) or a scalar.  Scalars are opaque to the library; integers,
strings and booleans cover every value the claims and tests exercise. -/
inductive Value where
  | vnone
  | vint (n : Int)
  | vstr (s : String)
  | vbool (b : Bool)
deriving DecidableEq, Repr

/-- Modelled from the spec: the structured, composable boolean condition
tree (`PQ`, a Django `Q` object) accepted by the Q-based `PartialIndex`
of the library's `index.py`/`query.py`, which are not under `src/`.
The spec calls it "a tree of conjunctions, disjunctions, field-to-literal
comparisons, and field-to-field comparisons".  `exact f v` is
`Q(f=v)` (a literal comparison; `v = None` compiles to `f IS NULL`),
`exactF f g` is `Q(f=F(g))` (a field-to-field comparison),
`isnull f b` is `Q(f__isnull=b)`. -/
inductive PQ where
  | exact (field : String) (v : Value)
  | exactF (field : String) (other : String)
  | isnull (field : String) (b : Bool)
  | qand (a b : PQ)
  | qor (a b : PQ)
deriving DecidableEq, Repr

/-- Kleene (SQL three-valued) conjunction; `none` is SQL UNKNOWN. -/
def kand : Option Bool → Option Bool → Option Bool
  | some false, _ => some false
  | _, some false => some false
  | some true, some true => some true
  | _, _ => none

/-- Kleene (SQL three-valued) disjunction; `none` is SQL UNKNOWN. -/
def kor : Option Bool → Option Bool → Option Bool
  | some true, _ => some true
  | _, some true => some true
  | some false, some false => some false
  | _, _ => none

/-- Server-side evaluation of a structured condition on one row, with SQL
three-valued logic, as the Django ORM compiles it: `Q(f=v)` for non-null
`v` is `f = v` (UNKNOWN when `f` is NULL), `Q(f=None)` is `f IS NULL`,
`Q(f__isnull=b)` is `f IS (NOT) NULL`, `Q(f=F(g))` is `f = g`.
A row passes a queryset filter exactly when the result is `some true`. -/
def qEval : PQ → (String → Value) → Option Bool
  | .exact f v, row =>
      match v with
      | .vnone => some (row f == Value.vnone)
      | _ => if row f == Value.vnone then none else some (row f == v)
  | .exactF f g, row =>
      if row f == Value.vnone || row g == Value.vnone then none
      else some (row f == row g)
  | .isnull f b, row => some ((row f == Value.vnone) == b)
  | .qand a b, row => kand (qEval a row) (qEval b row)
  | .qor a b, row => kor (qEval a row) (qEval b row)

/-- Modelled from the spec: `query.q_mentioned_fields` of the library's
`query.py`, which is not under `src/` — "recursively walk the tree
collecting every field reference". -/
def qMentionedFields : PQ → List String
  | .exact f _ => [f]
  | .exactF f g => [f, g]
  | .isnull f _ => [f]
  | .qand a b => qMentionedFields a ++ qMentionedFields b
  | .qor a b => qMentionedFields a ++ qMentionedFields b

/-- The where-condition slot of the Q-era `PartialIndex` (`index.py`, not
under `src/`): either raw SQL text or a structured `Q` object.
`mixins.py` dispatches on `isinstance(where, Q)`. -/
inductive WhereCond where
  | text (s : String)
  | q (cond : PQ)
deriving DecidableEq, Repr

/-- The Q-era `PartialIndex` descriptor as consumed by
`ValidatePartialUniqueMixin` (`mixins.py` reads `idx.fields`, `idx.unique`
and `idx.where`).  Field order is the declared order. -/
structure PIdx where
  fields : List String
  unique : Bool
  whereCond : WhereCond
deriving DecidableEq, Repr

/-- A model instance under validation: its primary-key attribute
(`self.pk`, `none` for an unsaved instance; integer pks as in the test
models) and its field values (`getattr(self, field_name)`). -/
structure ModelInst where
  pkVal : Option Int
  attr : String → Value

/-- An existing database row: its primary key and its column values. -/
structure DBRow where
  rowPk : Int
  attr : String → Value

/-- Python truthiness of `self.pk` as used by `if self.pk:` in
`validate_partial_unique`: `None` and `0` are falsy. -/
def pkTruthy : Option Int → Bool
  | some n => n != 0
  | none => false

/-- The exceptions `validate_partial_unique` can raise besides the
validation error itself: `ImproperlyConfigured` for a text-based where
condition, `RuntimeError` for mentioned fields missing from the model. -/
inductive ConfigErr where
  | improperlyConfigured
  | runtimeErr
deriving DecidableEq, Repr

/-- Django's `NON_FIELD_ERRORS` key. -/
def nonFieldErrors : String := "__all__"

/-- Lexicographic strict order on character lists by code point, as Python
compares strings. -/
def charListLt : List Char → List Char → Bool
  | [], [] => false
  | [], _ :: _ => true
  | _ :: _, [] => false
  | a :: as, b :: bs =>
      if a.toNat < b.toNat then true
      else if b.toNat < a.toNat then false
      else charListLt as bs

/-- Python `<` on strings (lexicographic by code point). -/
def strLtB (a b : String) : Bool := charListLt a.data b.data

/-- Insertion of `x` into an ascending list of strings. -/
def strInsert (x : String) : List String → List String
  | [] => [x]
  | y :: ys => if strLtB x y then x :: y :: ys else y :: strInsert x ys

/-- Python `sorted` on a list of strings (used for
`sorted(idx.fields)` in the error message). -/
def sortStrings : List String → List String
  | [] => []
  | x :: xs => strInsert x (sortStrings xs)

/-- The candidate queryset of `validate_partial_unique` (steps 1-4 of its
docstring): existing rows filtered by equality on every mentioned field's
current instance value (Django's `filter(**values)`; a `None` value
compiles to `IS NULL`), then by the structured condition evaluated
server-side, then — when `self.pk` is truthy — excluding the row whose
primary key equals the instance's own. -/
def conflictRows (mentioned : List String) (w : PQ) (inst : ModelInst)
    (db : List DBRow) : List DBRow :=
  let qs := db.filter (fun r =>
    mentioned.all (fun f => r.attr f == inst.attr f)
      && (qEval w r.attr == some true))
  if pkTruthy inst.pkVal then
    qs.filter (fun r => !(inst.pkVal == some r.rowPk))
  else qs

/-- One error entry: a key (a field name or `NON_FIELD_ERRORS`) together
with one message; a message (`unique_error_message`) is modelled by the
sorted field list it reports. -/
abbrev ErrEntry := String × List String

/-- The error dict raised by validation: keys mapped to the list of
messages accumulated under them, in insertion order (Python
`defaultdict(list)` / `dict`). -/
abbrev ErrDict := List (String × List (List String))

/-- The body of `validate_partial_unique`'s per-descriptor loop from
`mixins.py`: raise `ImproperlyConfigured` unless the where condition is a
`Q` object; compute the mentioned fields (indexed fields union the fields
mentioned by the condition); raise `RuntimeError` when some mentioned field
is missing from the model; skip (no error) when a mentioned field is
excluded; skip when some indexed field's current value is `None`; otherwise
query for conflicts and report one error keyed by the single indexed field
name, or `NON_FIELD_ERRORS` when several fields are indexed.  Returns the
(possibly empty) list of error entries this descriptor contributes. -/
def checkIndex (modelFields exclude : List String) (inst : ModelInst)
    (db : List DBRow) (idx : PIdx) : Except ConfigErr (List ErrEntry) :=
  match idx.whereCond with
  | .text _ => .error .improperlyConfigured
  | .q w =>
    let mentioned := idx.fields ++ qMentionedFields w
    if !(mentioned.all (fun f => modelFields.contains f)) then
      .error .runtimeErr
    else if mentioned.any (fun f => exclude.contains f) then
      .ok []
    else if mentioned.any (fun f =>
        inst.attr f == Value.vnone && idx.fields.contains f) then
      .ok []
    else if (conflictRows mentioned w inst db).isEmpty then
      .ok []
    else
      .ok [(if idx.fields.length == 1 then idx.fields.headD nonFieldErrors
            else nonFieldErrors,
            sortStrings idx.fields)]

/-- Python `errors[key].append(msg)` on a `defaultdict(list)`: append the message
under an existing key, or add the key at the end. -/
def errAdd (d : ErrDict) (k : String) (m : List String) : ErrDict :=
  match d with
  | [] => [(k, [m])]
  | (k0, ms) :: rest =>
      if k0 == k then (k0, ms ++ [m]) :: rest else (k0, ms) :: errAdd rest k m

/-- The loop of `validate_partial_unique` over the model's declared
indexes: non-unique or non-`PartialIndex` entries are ignored, each unique
descriptor is checked in declared order, its error entries are accumulated
into the dict, and a configuration exception aborts the loop (discarding
errors collected so far). -/
def collectIdxErrors (modelFields exclude : List String) (inst : ModelInst)
    (db : List DBRow) (acc : ErrDict) : List PIdx → Except ConfigErr ErrDict
  | [] => .ok acc
  | idx :: rest =>
    if idx.unique then
      match checkIndex modelFields exclude inst db idx with
      | .error e => .error e
      | .ok entries =>
          collectIdxErrors modelFields exclude inst db
            (entries.foldl (fun d km => errAdd d km.1 km.2) acc) rest
    else collectIdxErrors modelFields exclude inst db acc rest

/-- Embeds `ValidatePartialUniqueMixin.validate_partial_unique` from `mixins.py`:
the returned dict is the one it raises `PartialUniqueValidationError` with
when non-empty (an empty dict means the check passed). -/
def validatePU (idxs : List PIdx) (modelFields exclude : List String)
    (inst : ModelInst) (db : List DBRow) : Except ConfigErr ErrDict :=
  collectIdxErrors modelFields exclude inst db [] idxs

/-- Python `dict.update`: entries of `a` whose key also occurs in `b` get
`b`'s value in place; keys of `b` new to `a` are appended in `b`'s order. -/
def dictUpdate (a b : ErrDict) : ErrDict :=
  a.map (fun kv =>
    (kv.1, match b.lookup kv.1 with
           | some w => w
           | none => kv.2))
  ++ b.filter (fun kv => (a.lookup kv.1).isNone)

/-- Embeds `ValidatePartialUniqueMixin.validate_unique` from `mixins.py`: run the
base class's `validate_unique` (Django's standard path, an external
collaborator whose error dict is the `baseErrors` input; an empty dict
means it raised nothing), then `validate_partial_unique` — with the
exclusion set dropped when the `DJANGO_PARTIAL_INDEX_FORCE_VALIDATION`
setting (default `True`) is on — and `errors.update(...)` the two dicts.
The combined dict is raised as `PartialUniqueValidationError` when
non-empty; configuration exceptions propagate uncaught. -/
def validateUnique (baseErrors : ErrDict) (forceValidation : Bool)
    (idxs : List PIdx) (modelFields exclude : List String)
    (inst : ModelInst) (db : List DBRow) : Except ConfigErr ErrDict :=
  match validatePU idxs modelFields (if forceValidation then [] else exclude)
      inst db with
  | .error e => .error e
  | .ok pu => .ok (dictUpdate baseErrors pu)

/-- A Python scalar as passed for the `unique` flag of
`PartialIndex.__init__` (`partial_index/__init__.py`, version 0.4.0):
the parameter is dynamically typed, so any scalar can arrive. -/
inductive PyVal where
  | pynone
  | pybool (b : Bool)
  | pyint (n : Int)
  | pystr (s : String)
deriving DecidableEq, Repr

/-- Python `==` on these scalars: booleans compare equal to the integers
`1` and `0` (`True == 1`, `False == 0`), `None` only to itself, strings
only to equal strings. -/
def pyEq : PyVal → PyVal → Bool
  | .pynone, .pynone => true
  | .pybool a, .pybool b => a == b
  | .pyint a, .pyint b => a == b
  | .pystr a, .pystr b => a == b
  | .pybool a, .pyint b => (if a then (1 : Int) else 0) == b
  | .pyint a, .pybool b => a == (if b then (1 : Int) else 0)
  | _, _ => false

/-- Python `str()` on these scalars. -/
def pyStr : PyVal → String
  | .pynone => "None"
  | .pybool b => if b then "True" else "False"
  | .pyint n => toString n
  | .pystr s => s

/-- The text-predicate `PartialIndex` descriptor of
`partial_index/__init__.py` (version 0.4.0), as stored after a successful
`__init__`: `fields_orders` (field name with its descending flag),
the `unique` flag exactly as passed, and the three where-predicate slots
(empty string where not supplied). -/
structure IdxDef where
  fieldsOrders : List (String × Bool)
  unique : PyVal
  whereText : String
  wherePostgresql : String
  whereSqlite : String
deriving DecidableEq, Repr

/-- Embeds `PartialIndex.__init__` from `partial_index/__init__.py`: reject
(`ValueError`) when `unique not in [True, False]` (Python `in` compares
with `==`), when a single `where` predicate is combined with a
dialect-specific one, when no predicate at all is supplied, or when
`where_postgresql == where_sqlite`; truthiness of a predicate string is
non-emptiness. -/
def pIndexInit (fields : List (String × Bool)) (unique : PyVal)
    (w wpg wsq : String) : Except String IdxDef :=
  if !(pyEq unique (.pybool true) || pyEq unique (.pybool false)) then
    .error "Unique must be True or False"
  else if w != "" then
    if wpg != "" || wsq != "" then
      .error "If providing a single where predicate, must not provide where_postgresql or where_sqlite"
    else .ok ⟨fields, unique, w, wpg, wsq⟩
  else
    if wpg == "" && wsq == "" then
      .error "At least one where predicate must be provided"
    else if wpg == wsq then
      .error "If providing a separate where_postgresql and where_sqlite, then they must be different."
    else .ok ⟨fields, unique, w, wpg, wsq⟩

/-- The `sql_create_index` template table of `PartialIndex`: one CREATE
INDEX template per supported database vendor. -/
def sqlCreateIndex : List (String × String) :=
  [("postgresql", "CREATE%(unique)s INDEX %(name)s ON %(table)s%(using)s (%(columns)s)%(extra)s WHERE %(where)s"),
   ("sqlite", "CREATE%(unique)s INDEX %(name)s ON %(table)s%(using)s (%(columns)s) WHERE %(where)s")]

/-- Embeds `PartialIndex.get_valid_vendor_for_connection`: the connection's
vendor string is returned when it is a key of `sql_create_index`,
otherwise `ValueError` is raised. -/
def getValidVendorForConnection (vendor : String) : Except String String :=
  if (sqlCreateIndex.lookup vendor).isSome then .ok vendor
  else .error "Database vendor is not supported for django-partial-index."

/-- Embeds `PartialIndex.get_where_condition_for_vendor`: the dialect-specific
predicate when non-empty (Python `or`), else the dialect-agnostic one;
any other vendor raises `ValueError("Should never happen")`. -/
def getWhereConditionForVendor (idx : IdxDef) (vendor : String) :
    Except String String :=
  if vendor == "postgresql" then
    .ok (if idx.wherePostgresql != "" then idx.wherePostgresql else idx.whereText)
  else if vendor == "sqlite" then
    .ok (if idx.whereSqlite != "" then idx.whereSqlite else idx.whereText)
  else .error "Should never happen"

/-- Python slicing `s[:n]`. -/
def strTake (s : String) (n : Nat) : String := String.mk (s.data.take n)

/-- Embeds `PartialIndex.name_hash_extra_data`:
`[str(self.unique), self.where, self.where_postgresql, self.where_sqlite]`. -/
def nameHashExtraData (idx : IdxDef) : List String :=
  [pyStr idx.unique, idx.whereText, idx.wherePostgresql, idx.whereSqlite]

/-- One hexadecimal digit. -/
def hexChar (n : Nat) : Char :=
  if n < 10 then Char.ofNat (48 + n) else Char.ofNat (87 + n % 16)

/-- Modelled from the spec: Django's `Index._hash_generator` digest — a
"deterministic fixed-width hash" of six hexadecimal characters (an md5
hexdigest truncated to 6) — represented by a concrete six-hex-character
digest.  It is a function of the concatenation of its arguments alone,
exactly as sequential `md5.update` calls hash the concatenated bytes. -/
def digest6 (s : String) : String :=
  let h := s.data.foldl (fun a c => (a * 31 + c.toNat) % 16777216) 7
  String.mk [hexChar (h / 1048576 % 16), hexChar (h / 65536 % 16),
             hexChar (h / 4096 % 16), hexChar (h / 256 % 16),
             hexChar (h / 16 % 16), hexChar (h % 16)]

/-- Embeds `Index._hash_generator(*args)` (Django, external collaborator): the
fixed-width digest of the arguments hashed in sequence, i.e. of their
concatenation. -/
def hashGenerator (args : List String) : String :=
  digest6 (String.join args)

/-- The `hash_data` list of `set_name_with_model`:
`[table_name] + column_names_with_order + [self.suffix] +
self.name_hash_extra_data()`, where a descending column is rendered with a
leading `-` and the suffix token is `"partial"`.  `colsOrders` is the
model's resolution of `fields_orders` to physical column names with their
directions (an external collaborator's output). -/
def nameHashData (tableName : String) (colsOrders : List (String × Bool))
    (idx : IdxDef) : List String :=
  [tableName]
  ++ colsOrders.map (fun p => (if p.2 then "-" else "") ++ p.1)
  ++ ["partial"]
  ++ nameHashExtraData idx

/-- Django's `Index.check_name` (external collaborator) as called at the
end of `set_name_with_model`: a leading underscore, or else a leading
digit, is replaced by `D`. -/
def checkNameL : List Char → List Char
  | [] => []
  | c :: cs => if c = '_' ∨ c.isDigit then 'D' :: cs else c :: cs

/-- Embeds `PartialIndex.set_name_with_model`: the generated index name
`table_name[:11] + "_" + column_names[0][:7] + "_" + hash + "_" + suffix`
with suffix token `"partial"`, run through Django's `check_name`.
`none` models the `IndexError` of `column_names[0]` on an empty field
list; the `assert len(self.name) <= self.max_name_length` is the subject
of a separate theorem. -/
def setNameWithModel (tableName : String) (colsOrders : List (String × Bool))
    (idx : IdxDef) : Option String :=
  match colsOrders with
  | [] => none
  | (c0, _) :: _ =>
    let nm := strTake tableName 11 ++ "_" ++ strTake c0 7 ++ "_"
      ++ (hashGenerator (nameHashData tableName colsOrders idx) ++ "_" ++ "partial")
    some (String.mk (checkNameL nm.data))

/-- Embeds `PartialIndex.max_name_length`. -/
def maxNameLength : Nat := 34

theorem checkNameL_length (l : List Char) : (checkNameL l).length = l.length := by
  cases l with
  | nil => rfl
  | cons c cs =>
    simp only [checkNameL]
    split <;> rfl

theorem digest6_length (s : String) : (digest6 s).length = 6 := rfl

/-- Claim C7: for every descriptor for which name generation succeeds, the
rendered name — first 11 characters of the table name, an underscore,
first 7 characters of the first column name, an underscore, the hash, and
the suffix token — has length at most 34 (`max_name_length`), so the
internal `assert len(self.name) <= self.max_name_length` never fires. -/
theorem claim_c7_name_length (tableName : String)
    (colsOrders : List (String × Bool)) (idx : IdxDef) (nm : String)
    (h : setNameWithModel tableName colsOrders idx = some nm) :
    nm.length ≤ maxNameLength := by
  match colsOrders with
  | [] => simp [setNameWithModel] at h
  | (c0, o) :: rest =>
    simp only [setNameWithModel, Option.some.injEq] at h
    subst h
    simp only [String.length_mk, checkNameL_length, maxNameLength]
    have hd : ∀ a b : String, (a ++ b).data = a.data ++ b.data :=
      String.data_append
    simp only [hd, List.length_append, strTake, hashGenerator]
    have h1 : (tableName.data.take 11).length ≤ 11 := by
      simp [List.length_take]
    have h2 : (c0.data.take 7).length ≤ 7 := by
      simp [List.length_take]
    have h3 : (digest6 (String.join (nameHashData tableName ((c0, o) :: rest) idx))).length = 6 :=
      digest6_length _
    simp only [String.length] at h3
    simp only [List.length_cons, List.length_nil]
    omega

/-- Witness for C7 at a concrete descriptor: the generated name of a
unique index on column `a` of table `x` is at most 34 characters. -/
theorem claim_c7_name_length_witness :
    ((setNameWithModel "x" [("a", false)]
        ⟨[("a", false)], .pybool true, "y IS NULL", "", ""⟩).getD "").length
      ≤ maxNameLength :=
  claim_c7_name_length "x" [("a", false)]
    ⟨[("a", false)], .pybool true, "y IS NULL", "", ""⟩ _ (by rfl)

/-- Claim C9: for each supported dialect the dialect-specific predicate is
rendered verbatim when defined, with fallback to the dialect-agnostic
predicate; an unsupported dialect identifier is rejected with an error by
both `get_valid_vendor_for_connection` and
`get_where_condition_for_vendor`, never silently falling back. -/
theorem claim_c9_vendor_dispatch (idx : IdxDef) (v : String)
    (hpg : v ≠ "postgresql") (hsq : v ≠ "sqlite") :
    getWhereConditionForVendor idx "postgresql"
      = .ok (if idx.wherePostgresql != "" then idx.wherePostgresql
             else idx.whereText)
    ∧ getWhereConditionForVendor idx "sqlite"
      = .ok (if idx.whereSqlite != "" then idx.whereSqlite
             else idx.whereText)
    ∧ getValidVendorForConnection v
      = .error "Database vendor is not supported for django-partial-index."
    ∧ getWhereConditionForVendor idx v = .error "Should never happen" := by
  have h1 : (v == "postgresql") = false := by
    simp [beq_iff_eq, hpg]
  have h2 : (v == "sqlite") = false := by
    simp [beq_iff_eq, hsq]
  refine ⟨rfl, rfl, ?_, ?_⟩
  · simp [getValidVendorForConnection, sqlCreateIndex, List.lookup, h1, h2]
  · simp [getWhereConditionForVendor, h1, h2]

/-- Witness for C9 at the unsupported vendor `mysql` and a concrete
descriptor with a postgresql-specific predicate. -/
theorem claim_c9_vendor_dispatch_witness :
    getWhereConditionForVendor ⟨[("a", false)], .pybool true, "w", "pg", ""⟩
        "postgresql" = .ok "pg"
    ∧ getWhereConditionForVendor ⟨[("a", false)], .pybool true, "w", "pg", ""⟩
        "sqlite" = .ok "w"
    ∧ getValidVendorForConnection "mysql"
      = .error "Database vendor is not supported for django-partial-index."
    ∧ getWhereConditionForVendor ⟨[("a", false)], .pybool true, "w", "pg", ""⟩
        "mysql" = .error "Should never happen" :=
  claim_c9_vendor_dispatch ⟨[("a", false)], .pybool true, "w", "pg", ""⟩
    "mysql" (by decide) (by decide)

/-- Counterexample to claim C6 as stated: the integer `1` is not exactly
`True` or `False`, yet `PartialIndex.__init__` accepts it as the `unique`
flag (Python's `unique not in [True, False]` membership test compares with
`==`, and `1 == True` in Python), so construction does not fail for every
non-boolean flag. -/
theorem claim_c6_cex :
    pIndexInit [("a", false)] (.pyint 1) "x" "" ""
      = .ok ⟨[("a", false)], .pyint 1, "x", "", ""⟩
    ∧ PyVal.pyint 1 ≠ PyVal.pybool true
    ∧ PyVal.pyint 1 ≠ PyVal.pybool false :=
  ⟨rfl, by decide, by decide⟩

/-- Claim C6 (amended): construction succeeds exactly when the `unique`
flag compares `==`-equal to `True` or to `False` (so the integers `1` and
`0` are also accepted) and the predicate slots are well-formed: either a
single predicate alone, or no single predicate and differing
dialect-specific predicates; every other combination fails with an
error. -/
theorem claim_c6_construction (fields : List (String × Bool)) (unique : PyVal)
    (w wpg wsq : String) :
    (∃ d, pIndexInit fields unique w wpg wsq = .ok d) ↔
      ((pyEq unique (.pybool true) || pyEq unique (.pybool false)) = true
       ∧ ((w ≠ "" ∧ wpg = "" ∧ wsq = "") ∨ (w = "" ∧ wpg ≠ wsq))) := by
  unfold pIndexInit
  by_cases hu : (pyEq unique (.pybool true) || pyEq unique (.pybool false)) = true
  · by_cases hw : w = ""
    · subst hw
      by_cases hpgsq : wpg = wsq
      · subst hpgsq
        by_cases hpg : wpg = ""
        · subst hpg
          simp [hu]
        · simp [hu, hpg]
      · by_cases hpg : wpg = ""
        · subst hpg
          have hsq : ¬ wsq = "" := fun h => hpgsq h.symm
          simp [hu, hpgsq, hsq]
        · simp [hu, hpgsq, hpg]
    · by_cases hpg : wpg = ""
      · by_cases hsq : wsq = ""
        · subst hpg; subst hsq
          simp [hu, hw]
        · simp [hu, hw, hpg, hsq]
      · simp [hu, hw, hpg]
  · have h1 : pyEq unique (.pybool true) = false := by
      cases h : pyEq unique (.pybool true)
      · rfl
      · exact absurd (by simp [h]) hu
    have h2 : pyEq unique (.pybool false) = false := by
      cases h : pyEq unique (.pybool false)
      · rfl
      · exact absurd (by simp [h]) hu
    simp [h1, h2]

/-- Counterexample to claim C8 as stated: two descriptors on the same
table with the same fields, directions and uniqueness flag, differing in
the postgresql and sqlite predicate slots, receive the same generated
name.  The hash input is the plain concatenation of the hash-data strings
(sequential `md5.update` calls hash the concatenated bytes), so the slot
pairs `("ab", "c")` and `("a", "bc")` hash identically. -/
theorem claim_c8_cex :
    setNameWithModel "x" [("a", false)]
        ⟨[("a", false)], .pybool true, "", "ab", "c"⟩
      = setNameWithModel "x" [("a", false)]
        ⟨[("a", false)], .pybool true, "", "a", "bc"⟩
    ∧ ("ab" : String) ≠ "a"
    ∧ ("c" : String) ≠ "bc" :=
  ⟨rfl, by decide, by decide⟩

theorem checkNameL_append_inj (P S1 S2 : List Char) (hP : P ≠ [])
    (h : checkNameL (P ++ S1) = checkNameL (P ++ S2)) : S1 = S2 := by
  cases P with
  | nil => exact absurd rfl hP
  | cons c cs =>
    simp only [List.cons_append, checkNameL] at h
    split at h <;>
      (simp only [List.cons.injEq] at h
       exact List.append_cancel_left h.2)

/-- Claim C8 (amended): holding table, columns and directions fixed, two
descriptors receive the same generated name exactly when the digests of
their concatenated hash data coincide.  In particular names differ
whenever the digests differ, but because the hash data strings are
concatenated without separators, different predicate slots can produce the
same concatenation — and then the same name (see the counterexample). -/
theorem claim_c8_name_sensitivity (tableName : String)
    (colsOrders : List (String × Bool)) (idxA idxB : IdxDef)
    (hne : colsOrders ≠ []) :
    setNameWithModel tableName colsOrders idxA
      = setNameWithModel tableName colsOrders idxB
    ↔ hashGenerator (nameHashData tableName colsOrders idxA)
      = hashGenerator (nameHashData tableName colsOrders idxB) := by
  match colsOrders, hne with
  | (c0, o) :: rest, _ =>
    simp only [setNameWithModel, Option.some.injEq]
    constructor
    · intro h
      replace h := String.ext_iff.mp h
      dsimp only at h
      simp only [String.data_append] at h
      have h3 := checkNameL_append_inj _ _ _ (by simp) h
      have h4 := List.append_cancel_right h3
      have h5 := List.append_cancel_right h4
      exact String.ext h5
    · intro h
      rw [h]

/-- Witness for the amended C8 at concrete descriptors differing only in
the single predicate slot. -/
theorem claim_c8_name_sensitivity_witness :
    setNameWithModel "x" [("a", false)]
        ⟨[("a", false)], .pybool true, "p", "", ""⟩
      = setNameWithModel "x" [("a", false)]
        ⟨[("a", false)], .pybool true, "q", "", ""⟩
    ↔ hashGenerator (nameHashData "x" [("a", false)]
        ⟨[("a", false)], .pybool true, "p", "", ""⟩)
      = hashGenerator (nameHashData "x" [("a", false)]
        ⟨[("a", false)], .pybool true, "q", "", ""⟩) :=
  claim_c8_name_sensitivity "x" [("a", false)] _ _ (by decide)

/-- Claim C1: for a unique descriptor with a structured condition whose
mentioned fields all exist on the model, if the instance's current value
of any indexed field is `None`, `validate_partial_unique`'s per-descriptor
check reports no conflict for that descriptor, regardless of the database
contents (and of the exclusion set). -/
theorem claim_c1_null_skip (idx : PIdx) (w : PQ)
    (modelFields exclude : List String) (inst : ModelInst) (db : List DBRow)
    (hw : idx.whereCond = .q w)
    (hall : ((idx.fields ++ qMentionedFields w).all
      (fun f => modelFields.contains f)) = true)
    (f : String) (hf : f ∈ idx.fields) (hnull : inst.attr f = Value.vnone) :
    checkIndex modelFields exclude inst db idx = .ok [] := by
  have hskip : ((idx.fields ++ qMentionedFields w).any
      (fun g => inst.attr g == Value.vnone && idx.fields.contains g)) = true := by
    refine List.any_eq_true.mpr ⟨f, List.mem_append_left _ hf, ?_⟩
    simp [hnull, hf]
  simp only [checkIndex, hw]
  split
  · rename_i hc
    rw [hall] at hc
    simp at hc
  · by_cases hex : ((idx.fields ++ qMentionedFields w).any
        (fun f => exclude.contains f)) = true
    · rw [if_pos hex]
    · rw [if_neg hex]


/-- Witness for C1: a descriptor unique on `[a, b]` with condition
`deleted_at IS NULL`, an instance whose `a` is `None`, and a database row
that matches on every field — yet no conflict is reported. -/
theorem claim_c1_null_skip_witness :
    checkIndex ["a", "b", "d"] []
      ⟨none, fun g => if g == "a" then Value.vnone else Value.vint 1⟩
      [⟨1, fun g => if g == "d" then Value.vnone else Value.vint 1⟩]
      ⟨["a", "b"], true, .q (.isnull "d" true)⟩ = .ok [] :=
  claim_c1_null_skip _ (.isnull "d" true) _ _ _ _ rfl (by decide) "a"
    (by decide) (by decide)

/-- Claim C3: if any field relevant to a unique descriptor (an indexed
field or one mentioned by its structured condition) is in the exclusion
set, the per-descriptor check is skipped and reports no conflict, whatever
the database contains. -/
theorem claim_c3_exclusion_skip (idx : PIdx) (w : PQ)
    (modelFields exclude : List String) (inst : ModelInst) (db : List DBRow)
    (hw : idx.whereCond = .q w)
    (hall : ((idx.fields ++ qMentionedFields w).all
      (fun f => modelFields.contains f)) = true)
    (f : String) (hf : f ∈ idx.fields ++ qMentionedFields w)
    (hex : f ∈ exclude) :
    checkIndex modelFields exclude inst db idx = .ok [] := by
  have hexc : ((idx.fields ++ qMentionedFields w).any
      (fun g => exclude.contains g)) = true :=
    List.any_eq_true.mpr ⟨f, hf, by simp [hex]⟩
  simp only [checkIndex, hw]
  split
  · rename_i hc
    rw [hall] at hc
    simp at hc
  · rfl

/-- Witness for C3: the condition field `d` is excluded, the database
holds a genuinely conflicting row, and still no conflict is reported. -/
theorem claim_c3_exclusion_skip_witness :
    checkIndex ["a", "d"] ["d"]
      ⟨none, fun g => if g == "a" then Value.vint 1 else Value.vnone⟩
      [⟨1, fun g => if g == "a" then Value.vint 1 else Value.vnone⟩]
      ⟨["a"], true, .q (.isnull "d" true)⟩ = .ok [] :=
  claim_c3_exclusion_skip _ (.isnull "d" true) _ _ _ _ rfl (by decide) "d"
    (by decide) (by decide)

/-- Claim C2: when the instance has an identity (a truthy `self.pk`, i.e.
it is being updated rather than inserted), the candidate query excludes
the row carrying the instance's own primary key; hence if every row that
matches the equality filter and the condition is the instance's own row,
no conflict is reported — updating a row to its own current values never
conflicts with itself. -/
theorem claim_c2_self_exclusion (idx : PIdx) (w : PQ)
    (modelFields exclude : List String) (inst : ModelInst) (db : List DBRow)
    (n : Int)
    (hw : idx.whereCond = .q w)
    (hall : ((idx.fields ++ qMentionedFields w).all
      (fun f => modelFields.contains f)) = true)
    (hpk : inst.pkVal = some n) (hn : n ≠ 0)
    (hself : ∀ r ∈ db,
      (((idx.fields ++ qMentionedFields w).all
          (fun f => r.attr f == inst.attr f))
        && (qEval w r.attr == some true)) = true → r.rowPk = n) :
    checkIndex modelFields exclude inst db idx = .ok [] := by
  have hempty : (conflictRows (idx.fields ++ qMentionedFields w) w inst
      db).isEmpty = true := by
    simp only [conflictRows, hpk]
    have htr : pkTruthy (some n) = true := by
      simp [pkTruthy, hn]
    rw [if_pos htr]
    have hnil : (db.filter (fun r =>
        ((idx.fields ++ qMentionedFields w).all
          (fun f => r.attr f == inst.attr f))
          && (qEval w r.attr == some true))).filter
        (fun r => !(some n == some r.rowPk)) = [] := by
      apply List.filter_eq_nil_iff.mpr
      intro r hr
      have hm := List.mem_filter.mp hr
      have hpkr : r.rowPk = n := hself r hm.1 hm.2
      simp [hpkr]
    rw [hnil]
    rfl
  simp only [checkIndex, hw]
  split
  · rename_i hc
    rw [hall] at hc
    simp at hc
  · by_cases hex : ((idx.fields ++ qMentionedFields w).any
        (fun f => exclude.contains f)) = true
    · rw [if_pos hex]
    · rw [if_neg hex]
      by_cases hsk : ((idx.fields ++ qMentionedFields w).any
          (fun f => inst.attr f == Value.vnone && idx.fields.contains f)) = true
      · rw [if_pos hsk]
      · rw [if_neg hsk]

/-- Witness for C2: the only matching row in the database is the
instance's own (primary key 7); updating it to its own values reports no
conflict. -/
theorem claim_c2_self_exclusion_witness :
    checkIndex ["a", "d"] []
      ⟨some 7, fun g => if g == "a" then Value.vint 1 else Value.vnone⟩
      [⟨7, fun g => if g == "a" then Value.vint 1 else Value.vnone⟩]
      ⟨["a"], true, .q (.isnull "d" true)⟩ = .ok [] :=
  claim_c2_self_exclusion _ (.isnull "d" true) _ _ _ _ 7 rfl (by decide)
    rfl (by decide) (by decide)

theorem checkIndex_q_isOk (modelFields exclude : List String)
    (inst : ModelInst) (db : List DBRow) (idx : PIdx) (w : PQ)
    (hw : idx.whereCond = .q w)
    (hall : ((idx.fields ++ qMentionedFields w).all
      (fun f => modelFields.contains f)) = true) :
    ∃ l, checkIndex modelFields exclude inst db idx = .ok l := by
  simp only [checkIndex, hw]
  split
  · rename_i hc
    rw [hall] at hc
    simp at hc
  · split
    · exact ⟨[], rfl⟩
    · split
      · exact ⟨[], rfl⟩
      · split
        · exact ⟨[], rfl⟩
        · exact ⟨_, rfl⟩

theorem collect_text_improperly (modelFields exclude : List String)
    (inst : ModelInst) (db : List DBRow) :
    ∀ (idxs : List PIdx) (acc : ErrDict),
      (∀ idx ∈ idxs, idx.unique = true → ∀ w, idx.whereCond = .q w →
        ((idx.fields ++ qMentionedFields w).all
          (fun f => modelFields.contains f)) = true) →
      (∃ idx ∈ idxs, idx.unique = true ∧ ∃ s, idx.whereCond = .text s) →
      collectIdxErrors modelFields exclude inst db acc idxs
        = .error .improperlyConfigured := by
  intro idxs
  induction idxs with
  | nil =>
    intro acc hq htext
    obtain ⟨idx, hmem, _⟩ := htext
    exact absurd hmem (List.not_mem_nil idx)
  | cons idx rest ih =>
    intro acc hq htext
    by_cases hu : idx.unique = true
    · cases hwc : idx.whereCond with
      | text s =>
        simp only [collectIdxErrors, hu, if_true]
        have : checkIndex modelFields exclude inst db idx
            = .error .improperlyConfigured := by
          simp only [checkIndex, hwc]
        rw [this]
      | q w =>
        obtain ⟨l, hl⟩ := checkIndex_q_isOk modelFields exclude inst db idx w
          hwc (hq idx (List.mem_cons_self idx rest) hu w hwc)
        simp only [collectIdxErrors, hu, if_true, hl]
        apply ih
        · intro i hi
          exact hq i (List.mem_cons_of_mem idx hi)
        · obtain ⟨i, hmem, hiu, s, his⟩ := htext
          rcases List.mem_cons.mp hmem with heq | hmem2
          · subst heq
            rw [hwc] at his
            exact absurd his (by simp)
          · exact ⟨i, hmem2, hiu, s, his⟩
    · simp only [collectIdxErrors, hu, if_false]
      apply ih
      · intro i hi
        exact hq i (List.mem_cons_of_mem idx hi)
      · obtain ⟨i, hmem, hiu, s, his⟩ := htext
        rcases List.mem_cons.mp hmem with heq | hmem2
        · subst heq
          exact absurd hiu hu
        · exact ⟨i, hmem2, hiu, s, his⟩

/-- Claim C5: when some unique descriptor on the model has a raw-text
where condition, `validate_partial_unique` raises `ImproperlyConfigured`
(provided the structurally-conditioned unique descriptors are well formed,
i.e. mention only model fields, so that no `RuntimeError` fires first); it
never silently reports "no conflict". -/
theorem claim_c5_text_where_rejected (idxs : List PIdx)
    (modelFields exclude : List String) (inst : ModelInst) (db : List DBRow)
    (hq : ∀ idx ∈ idxs, idx.unique = true → ∀ w, idx.whereCond = .q w →
      ((idx.fields ++ qMentionedFields w).all
        (fun f => modelFields.contains f)) = true)
    (htext : ∃ idx ∈ idxs, idx.unique = true ∧ ∃ s, idx.whereCond = .text s) :
    validatePU idxs modelFields exclude inst db
      = .error .improperlyConfigured :=
  collect_text_improperly modelFields exclude inst db idxs [] hq htext

/-- Witness for C5: the `RoomBookingText` configuration — a unique
descriptor with the text condition `deleted_at IS NULL` — fails with
`ImproperlyConfigured`. -/
theorem claim_c5_text_where_rejected_witness :
    validatePU [⟨["user", "room"], true, .text "deleted_at IS NULL"⟩]
      ["user", "room", "deleted_at"] []
      ⟨none, fun _ => Value.vint 1⟩ [] = .error .improperlyConfigured :=
  claim_c5_text_where_rejected _ _ _ _ _
    (by
      intro idx hmem hu w hwq
      rcases List.mem_cons.mp hmem with heq | hmem2
      · subst heq
        exact absurd hwq (by simp)
      · exact absurd hmem2 (List.not_mem_nil idx))
    ⟨⟨["user", "room"], true, .text "deleted_at IS NULL"⟩, by decide, rfl,
      "deleted_at IS NULL", rfl⟩

/-- Claim C10: a field mentioned only by the condition (not indexed) whose
instance value is `None` does not cause the descriptor to be skipped: the
check proceeds, its `None` value participates in the equality filter —
every row in the candidate queryset has NULL in that field — and a
conflict is still reported exactly when the candidate queryset is
non-empty. -/
theorem claim_c10_null_condition_field (idx : PIdx) (w : PQ)
    (modelFields exclude : List String) (inst : ModelInst) (db : List DBRow)
    (f : String)
    (hw : idx.whereCond = .q w)
    (hall : ((idx.fields ++ qMentionedFields w).all
      (fun g => modelFields.contains g)) = true)
    (hnoexcl : ((idx.fields ++ qMentionedFields w).any
      (fun g => exclude.contains g)) = false)
    (hnoskip : ((idx.fields ++ qMentionedFields w).any
      (fun g => inst.attr g == Value.vnone && idx.fields.contains g)) = false)
    (hfm : f ∈ qMentionedFields w) (hnf : ¬ f ∈ idx.fields)
    (hnull : inst.attr f = Value.vnone) :
    checkIndex modelFields exclude inst db idx
      = .ok (if (conflictRows (idx.fields ++ qMentionedFields w) w inst
              db).isEmpty then []
             else [(if idx.fields.length == 1
                    then idx.fields.headD nonFieldErrors
                    else nonFieldErrors,
                    sortStrings idx.fields)])
    ∧ ∀ r ∈ conflictRows (idx.fields ++ qMentionedFields w) w inst db,
        r.attr f = Value.vnone := by
  constructor
  · simp only [checkIndex, hw]
    split
    · rename_i hc
      rw [hall] at hc
      simp at hc
    · rw [if_neg (by rw [hnoexcl]; simp), if_neg (by rw [hnoskip]; simp)]
      split
      · rfl
      · rfl
  · intro r hr
    have hq : (((idx.fields ++ qMentionedFields w).all
        (fun g => r.attr g == inst.attr g))
        && (qEval w r.attr == some true)) = true := by
      simp only [conflictRows] at hr
      split at hr
      · exact (List.mem_filter.mp (List.mem_filter.mp hr).1).2
      · exact (List.mem_filter.mp hr).2
    have hallr := (Bool.and_eq_true_iff.mp hq).1
    have hfr := List.all_eq_true.mp hallr f (List.mem_append_right _ hfm)
    rw [hnull] at hfr
    exact eq_of_beq hfr

/-- Witness for C10: condition field `d` is `None` on the instance and on
a stored row matching on the indexed field `a`; the check is not skipped
and the conflict is reported under key `a`. -/
theorem claim_c10_null_condition_field_witness :
    checkIndex ["a", "d"] []
      ⟨none, fun g => if g == "a" then Value.vint 1 else Value.vnone⟩
      [⟨3, fun g => if g == "a" then Value.vint 1 else Value.vnone⟩]
      ⟨["a"], true, .q (.exact "d" Value.vnone)⟩
      = .ok (if (conflictRows (["a"] ++ qMentionedFields
              (.exact "d" Value.vnone)) (.exact "d" Value.vnone)
              ⟨none, fun g => if g == "a" then Value.vint 1 else Value.vnone⟩
              [⟨3, fun g => if g == "a" then Value.vint 1 else Value.vnone⟩]).isEmpty
             then []
             else [(if (["a"] : List String).length == 1
                    then (["a"] : List String).headD nonFieldErrors
                    else nonFieldErrors,
                    sortStrings ["a"])])
    ∧ (DBRow.mk 3 (fun g => if g == "a" then Value.vint 1
        else Value.vnone)).attr "d" = Value.vnone :=
  ⟨(claim_c10_null_condition_field ⟨["a"], true, .q (.exact "d" Value.vnone)⟩
      (.exact "d" Value.vnone) ["a", "d"] [] _ _ "d" rfl (by decide) (by decide)
      (by decide) (by decide) (by decide) (by decide)).1,
   (claim_c10_null_condition_field ⟨["a"], true, .q (.exact "d" Value.vnone)⟩
      (.exact "d" Value.vnone) ["a", "d"] []
      ⟨none, fun g => if g == "a" then Value.vint 1 else Value.vnone⟩
      [⟨3, fun g => if g == "a" then Value.vint 1 else Value.vnone⟩]
      "d" rfl (by decide) (by decide)
      (by decide) (by decide) (by decide) (by decide)).2
     (DBRow.mk 3 (fun g => if g == "a" then Value.vint 1 else Value.vnone))
     (List.Mem.head _)⟩

theorem strLookup_none_keys {β : Type} (k : String) (l : List (String × β))
    (h : l.lookup k = none) : ∀ kv ∈ l, (k == kv.1) = false := by
  induction l with
  | nil =>
    intro kv hkv
    exact absurd hkv (List.not_mem_nil kv)
  | cons e rest ih =>
    obtain ⟨ek, ev⟩ := e
    intro kv hkv
    simp only [List.lookup] at h
    cases hke : (k == ek) with
    | true =>
      rw [hke] at h
      exact Option.noConfusion h
    | false =>
      rw [hke] at h
      rcases List.mem_cons.mp hkv with heq | hmem
      · subst heq
        exact hke
      · exact ih h kv hmem

theorem strLookup_append_right {β : Type} (k : String)
    (l1 l2 : List (String × β)) (h : ∀ kv ∈ l1, (k == kv.1) = false) :
    (l1 ++ l2).lookup k = l2.lookup k := by
  induction l1 with
  | nil => rfl
  | cons e rest ih =>
    obtain ⟨ek, ev⟩ := e
    have hke := h (ek, ev) (List.mem_cons_self _ _)
    simp only [List.cons_append, List.lookup, hke]
    exact ih (fun kv hkv => h kv (List.mem_cons_of_mem _ hkv))

theorem strLookup_append_left {β : Type} (k : String)
    (l1 l2 : List (String × β)) (v : β) (h : l1.lookup k = some v) :
    (l1 ++ l2).lookup k = some v := by
  induction l1 with
  | nil => exact absurd h (by simp)
  | cons e rest ih =>
    obtain ⟨ek, ev⟩ := e
    simp only [List.lookup] at h
    simp only [List.cons_append, List.lookup]
    cases hke : (k == ek) with
    | true =>
      rw [hke] at h
      exact h
    | false =>
      rw [hke] at h
      exact ih h

theorem strLookup_filter {β : Type} (k : String) (p : String × β → Bool)
    (l : List (String × β)) (h : ∀ kv, (k == kv.1) = true → p kv = true) :
    (l.filter p).lookup k = l.lookup k := by
  induction l with
  | nil => rfl
  | cons e rest ih =>
    obtain ⟨ek, ev⟩ := e
    cases hke : (k == ek) with
    | true =>
      have hp := h (ek, ev) hke
      rw [List.filter_cons_of_pos hp]
      simp only [List.lookup, hke]
    | false =>
      cases hp : p (ek, ev) with
      | true =>
        rw [List.filter_cons_of_pos hp]
        simp only [List.lookup, hke]
        exact ih
      | false =>
        rw [List.filter_cons_of_neg (by simp [hp])]
        simp only [List.lookup, hke]
        exact ih

theorem strLookup_map_value {β : Type} (k : String) (g : String → β → β)
    (l : List (String × β)) (v : β) (h : l.lookup k = some v) :
    (l.map (fun kv => (kv.1, g kv.1 kv.2))).lookup k = some (g k v) := by
  induction l with
  | nil => exact absurd h (by simp)
  | cons e rest ih =>
    obtain ⟨ek, ev⟩ := e
    simp only [List.lookup] at h
    simp only [List.map_cons, List.lookup]
    cases hke : (k == ek) with
    | true =>
      rw [hke] at h
      have h2 : some ev = some v := h
      injection h2 with h3
      have hk : k = ek := eq_of_beq hke
      subst hk
      rw [h3]
    | false =>
      rw [hke] at h
      exact ih h

theorem dictUpdate_lookup_of_some (a b : ErrDict) (k : String)
    (wv : List (List String)) (hb : b.lookup k = some wv) :
    (dictUpdate a b).lookup k = some wv := by
  cases ha : a.lookup k with
  | some v =>
    have h1 := strLookup_map_value k
      (fun k0 v0 => match b.lookup k0 with | some w => w | none => v0) a v ha
    simp only [hb] at h1
    exact strLookup_append_left k _ _ _ h1
  | none =>
    have hkeys := strLookup_none_keys k a ha
    unfold dictUpdate
    rw [strLookup_append_right k _ _ ?_]
    · rw [strLookup_filter k _ b ?_]
      · exact hb
      · intro kv hkv
        have hk : k = kv.1 := eq_of_beq hkv
        rw [← hk, ha]
        rfl
    · intro kv hkv
      obtain ⟨kv0, hmem, hkv0⟩ := List.mem_map.mp hkv
      have : kv.1 = kv0.1 := by rw [← hkv0]
      rw [this]
      exact hkeys kv0 hmem

theorem dictUpdate_lookup_of_none (a b : ErrDict) (k : String)
    (hb : b.lookup k = none) :
    (dictUpdate a b).lookup k = a.lookup k := by
  cases ha : a.lookup k with
  | some v =>
    have h1 := strLookup_map_value k
      (fun k0 v0 => match b.lookup k0 with | some w => w | none => v0) a v ha
    simp only [hb] at h1
    exact strLookup_append_left k _ _ _ h1
  | none =>
    have hkeys := strLookup_none_keys k a ha
    unfold dictUpdate
    rw [strLookup_append_right k _ _ ?_]
    · rw [strLookup_filter k _ b ?_]
      · exact hb
      · intro kv hkv
        have hk : k = kv.1 := eq_of_beq hkv
        rw [← hk, ha]
        rfl
    · intro kv hkv
      obtain ⟨kv0, hmem, hkv0⟩ := List.mem_map.mp hkv
      have : kv.1 = kv0.1 := by rw [← hkv0]
      rw [this]
      exact hkeys kv0 hmem

/-- Counterexample to claim C4 as stated: the base validation path reports
the message `[x, y]` under `NON_FIELD_ERRORS` (`"__all__"`), the partial
path reports `[a, b]` under the same key, and `validate_unique` merges
with Python `dict.update` — so the raised error dict contains only the
partial-path message: the base failure is replaced, not preserved. -/
theorem claim_c4_cex :
    validateUnique [("__all__", [["x", "y"]])] true
      [⟨["a", "b"], true, .q (.isnull "d" true)⟩] ["a", "b", "d"] []
      ⟨none, fun g => if g == "a" then Value.vint 1
                      else if g == "b" then Value.vint 1 else Value.vnone⟩
      [⟨1, fun g => if g == "a" then Value.vint 1
                    else if g == "b" then Value.vint 1 else Value.vnone⟩]
      = .ok [("__all__", [["a", "b"]])]
    ∧ ["x", "y"] ∈ ([["x", "y"]] : List (List String))
    ∧ ¬ ["x", "y"] ∈ ([["a", "b"]] : List (List String)) :=
  ⟨by rfl, by decide, by decide⟩

/-- Claim C4 (amended): in one `validate_unique` pass all violated unique
partial-index descriptors are collected (in declared order) by
`validate_partial_unique` before anything is raised, and the partial-path
dict is merged into the base-path dict with `dict.update`: a key carrying
partial-path errors ends up with exactly the partial-path messages
(replacing any base-path entry under that key), while a key without
partial-path errors keeps its base-path entry unchanged. -/
theorem claim_c4_error_merge (baseErrors : ErrDict) (forceValidation : Bool)
    (idxs : List PIdx) (modelFields exclude : List String) (inst : ModelInst)
    (db : List DBRow) (pu : ErrDict)
    (hpu : validatePU idxs modelFields
      (if forceValidation then [] else exclude) inst db = .ok pu) :
    validateUnique baseErrors forceValidation idxs modelFields exclude inst db
      = .ok (dictUpdate baseErrors pu)
    ∧ (∀ k wv, pu.lookup k = some wv →
        (dictUpdate baseErrors pu).lookup k = some wv)
    ∧ (∀ k, pu.lookup k = none →
        (dictUpdate baseErrors pu).lookup k = baseErrors.lookup k) := by
  refine ⟨?_, ?_, ?_⟩
  · simp only [validateUnique, hpu]
  · intro k wv hk
    exact dictUpdate_lookup_of_some baseErrors pu k wv hk
  · intro k hk
    exact dictUpdate_lookup_of_none baseErrors pu k hk

/-- Witness for the amended C4 at a concrete input: one violated
descriptor contributes its message under `"__all__"`, replacing the base
entry there, while the base entry under `"created_at"` survives. -/
theorem claim_c4_error_merge_witness :
    validateUnique [("__all__", [["x", "y"]]), ("created_at", [["c"]])] true
      [⟨["a", "b"], true, .q (.isnull "d" true)⟩] ["a", "b", "d"] []
      ⟨none, fun g => if g == "a" then Value.vint 1
                      else if g == "b" then Value.vint 1 else Value.vnone⟩
      [⟨1, fun g => if g == "a" then Value.vint 1
                    else if g == "b" then Value.vint 1 else Value.vnone⟩]
      = .ok (dictUpdate [("__all__", [["x", "y"]]), ("created_at", [["c"]])]
          [("__all__", [["a", "b"]])])
    ∧ (dictUpdate [("__all__", [["x", "y"]]), ("created_at", [["c"]])]
        [("__all__", [["a", "b"]])]).lookup "__all__" = some [["a", "b"]]
    ∧ (dictUpdate [("__all__", [["x", "y"]]), ("created_at", [["c"]])]
        [("__all__", [["a", "b"]])]).lookup "created_at"
      = ([("__all__", [["x", "y"]]), ("created_at", [["c"]])] :
          ErrDict).lookup "created_at" :=
  ⟨(claim_c4_error_merge [("__all__", [["x", "y"]]), ("created_at", [["c"]])]
      true [⟨["a", "b"], true, .q (.isnull "d" true)⟩] ["a", "b", "d"] []
      ⟨none, fun g => if g == "a" then Value.vint 1
                      else if g == "b" then Value.vint 1 else Value.vnone⟩
      [⟨1, fun g => if g == "a" then Value.vint 1
                    else if g == "b" then Value.vint 1 else Value.vnone⟩]
      [("__all__", [["a", "b"]])] rfl).1,
   (claim_c4_error_merge [("__all__", [["x", "y"]]), ("created_at", [["c"]])]
      true [⟨["a", "b"], true, .q (.isnull "d" true)⟩] ["a", "b", "d"] []
      ⟨none, fun g => if g == "a" then Value.vint 1
                      else if g == "b" then Value.vint 1 else Value.vnone⟩
      [⟨1, fun g => if g == "a" then Value.vint 1
                    else if g == "b" then Value.vint 1 else Value.vnone⟩]
      [("__all__", [["a", "b"]])] rfl).2.1 "__all__" [["a", "b"]] (by rfl),
   (claim_c4_error_merge [("__all__", [["x", "y"]]), ("created_at", [["c"]])]
      true [⟨["a", "b"], true, .q (.isnull "d" true)⟩] ["a", "b", "d"] []
      ⟨none, fun g => if g == "a" then Value.vint 1
                      else if g == "b" then Value.vint 1 else Value.vnone⟩
      [⟨1, fun g => if g == "a" then Value.vint 1
                    else if g == "b" then Value.vint 1 else Value.vnone⟩]
      [("__all__", [["a", "b"]])] rfl).2.2 "created_at" (by rfl)⟩
